import Mathlib

/-!
# Verification of the gotes sync orchestrator

A shallow embedding of `src/main.go` (package `main` of alihassan-1177/gotes).
The program is a single-flow orchestrator around an external version-control
engine (go-git).  We model each engine call's outcome as a field of an
environment `Env`, and every Go function as a Lean function that returns the
value the Go function returns together with the list of observable events
(engine calls and printed lines) it emits, in order.  `runMain` is the
embedding of `func main`.
-/

namespace Gotes

/-- `type Config struct` of main.go (lines 16-20): the three JSON-tagged
string fields.  Go's zero value for a string is `""`. -/
structure Config where
  githubRepoUrl : String
  notesDirectory : String
  branchName : String
deriving Repr, DecidableEq

/-- The state of the configuration file as seen by `loadConfig`:
`os.ReadFile` can fail (`unreadable`), `json.Unmarshal` can fail
(`malformed`), or the file parses to a JSON object, modelled as an
association list of its string-valued members. -/
inductive ConfigFile
  | unreadable (e : String)
  | malformed (e : String)
  | object (fields : List (String × String))
deriving Repr, DecidableEq

/-- `json.Unmarshal` of a JSON object into `Config`: each tagged field is
filled from the member of the same name; a missing member leaves the Go
zero value `""` in place (encoding/json substitutes no error and no other
default for an absent key). -/
def unmarshalConfig (fields : List (String × String)) : Config :=
  { githubRepoUrl := ((fields.lookup "github_repo_url").getD "")
    notesDirectory := ((fields.lookup "notes_directory").getD "")
    branchName := ((fields.lookup "branch_name").getD "") }

/-- `loadConfig` (main.go lines 73-84): read the file, then unmarshal.
Either failure is returned to the caller; the path arithmetic against the
home directory does not affect the result and is not modelled. -/
def loadConfig (file : ConfigFile) : Except String Config :=
  match file with
  | .unreadable e => .error e
  | .malformed e => .error e
  | .object fields => .ok (unmarshalConfig fields)

/-- Result of `git.PlainOpen` (main.go line 34). -/
inductive OpenRes
  | ok
  | notExists
  | err (msg : String)
deriving Repr, DecidableEq

/-- Result of a go-git porcelain call that can succeed, return the
sentinel `git.NoErrAlreadyUpToDate`, or fail with some other error whose
`Error()` string is `msg`. -/
inductive GitRes
  | ok
  | alreadyUpToDate
  | err (msg : String)
deriving Repr, DecidableEq

/-- Observable events of one run: the engine calls the orchestrator makes,
with the arguments the Go code passes, and the lines it prints. -/
inductive Event
  | mkdirAll (path : String)
  | openRepo (path : String)
  | initRepo (path : String)
  | createRemote (remote url : String)
  | pull (remote : String)
  | statusCheck
  | addAll
  | commit (msg authorName authorEmail : String)
  | push (remote : String) (force : Bool)
  | checkout (branch : String) (create : Bool)
  | print (s : String)
deriving Repr, DecidableEq

/-- Outcomes of the external calls one run can make, plus the ambient
values (`os.Hostname`, formatted `time.Now`) the run reads.  `os.MkdirAll`
at main.go line 31 has no field here because the code discards its error
return, so its outcome is unobservable to the orchestration. -/
structure Env where
  configFile : ConfigFile
  dirMissing : Bool
  openRes : OpenRes
  initErr : Option String
  remoteErr : Option String
  worktreeErr : Option String
  pullRes : GitRes
  statusErr : Option String
  statusClean : Bool
  addErr : Option String
  commitErr : Option String
  pushRes : GitRes
  checkoutErr : Option String
  checkoutCreateErr : Option String
  hostname : String
  timestamp : String
deriving Repr, DecidableEq

/-- `setupRemote` (main.go lines 86-95): create a remote named "origin"
with the given URL; a failure is printed and otherwise ignored. -/
def setupRemote (env : Env) (url : String) : List Event :=
  Event.createRemote "origin" url ::
    match env.remoteErr with
    | some e => [Event.print ("Remote setup: " ++ e)]
    | none => []

/-- `pullLatest` (main.go lines 174-195): get the worktree, pull from
"origin"; `git.NoErrAlreadyUpToDate` and the error whose message is
"remote repository is empty" are both turned into a nil return. -/
def pullLatest (env : Env) : Option String × List Event :=
  match env.worktreeErr with
  | some e => (some e, [])
  | none =>
    let evs := [Event.print "Pulling latest changes from remote...", Event.pull "origin"]
    match env.pullRes with
    | .alreadyUpToDate =>
        (none, evs ++ [Event.print "Local is already up to date with remote."])
    | .ok => (none, evs)
    | .err msg =>
        if msg = "remote repository is empty" then (none, evs) else (some msg, evs)

/-- `autoCommit` (main.go lines 120-152).  Line 126 reads
`status, _ := w.Status()`: the error is discarded, and on error go-git
returns a nil `Status` map, whose `IsClean()` is true, so a failed status
read is indistinguishable from a clean tree here. -/
def autoCommit (env : Env) : Option String × List Event :=
  match env.worktreeErr with
  | some e => (some e, [])
  | none =>
    let clean :=
      match env.statusErr with
      | some _ => true
      | none => env.statusClean
    if clean then
      (none, [Event.statusCheck, Event.print "Working tree clean. Nothing to commit."])
    else
      match env.addErr with
      | some e => (some e, [Event.statusCheck, Event.addAll])
      | none =>
        let msg := "Sync: " ++ env.hostname ++ " [" ++ env.timestamp ++ "]"
        let evs := [Event.statusCheck, Event.addAll,
                    Event.commit msg "Gotes Sync" "sync@gotes.local"]
        match env.commitErr with
        | some e => (some e, evs)
        | none => (none, evs ++ [Event.print "Changes committed locally."])

/-- `pushToRemote` (main.go lines 154-172): force-push the current branch
to "origin"; `git.NoErrAlreadyUpToDate` is turned into a nil return. -/
def pushToRemote (env : Env) : Option String × List Event :=
  let evs := [Event.print "Syncing to GitHub...", Event.push "origin" true]
  match env.pushRes with
  | .alreadyUpToDate => (none, evs ++ [Event.print "GitHub is already up to date."])
  | .ok => (none, evs ++ [Event.print "Push successful!"])
  | .err msg => (some msg, evs)

/-- `ensureCorrectBranch` (main.go lines 97-118): check out the branch
with `Create: false`; on failure print and retry with `Create: true`,
returning that second attempt's error.  The Go parameter is named
`hostname`, but `main` passes `config.BranchName` for it (line 65). -/
def ensureCorrectBranch (env : Env) (hostname : String) : Option String × List Event :=
  match env.worktreeErr with
  | some e => (some e, [])
  | none =>
    match env.checkoutErr with
    | none => (none, [Event.checkout hostname false])
    | some _ =>
        (env.checkoutCreateErr,
         [Event.checkout hostname false,
          Event.print ("Creating branch for machine: " ++ hostname),
          Event.checkout hostname true])

/-- Lines 55-63 of `main`: run `autoCommit`; on error print "Commit
skipped" and do not push, otherwise run `pushToRemote` and print "Push
Failed" when it errs. -/
def commitAndPush (env : Env) : List Event :=
  (autoCommit env).2 ++
    match (autoCommit env).1 with
    | some e => [Event.print ("Commit skipped: " ++ e)]
    | none =>
      (pushToRemote env).2 ++
        match (pushToRemote env).1 with
        | some e => [Event.print ("Push Failed: " ++ e)]
        | none => []

/-- Lines 65-69 of `main`: run `ensureCorrectBranch` on
`config.BranchName`; on error print "Branch Error" and return. -/
def branchStage (env : Env) (cfg : Config) : List Event :=
  (ensureCorrectBranch env cfg.branchName).2 ++
    match (ensureCorrectBranch env cfg.branchName).1 with
    | some e => [Event.print ("Branch Error: " ++ e)]
    | none => []

/-- Lines 50-70 of `main`, reached once a repository handle exists.
Line 50 calls `pullLatest(r)` without assigning its return value; the
`err` tested at line 51 is the one left over from the provisioning block,
which is nil on every path that reaches line 50, so both callers pass
`errAtLine50 = none` and the "Pull Warning" branch is dead code. -/
def mainTail (env : Env) (cfg : Config) (errAtLine50 : Option String) : List Event :=
  (pullLatest env).2 ++
  (match errAtLine50 with
   | some e => [Event.print ("Pull Warning: " ++ e ++ " (Proceeding anyway...)")]
   | none => []) ++
  commitAndPush env ++ branchStage env cfg

/-- `func main` (main.go lines 22-71): load the configuration, create the
notes directory when `os.Stat` reports it missing (the `MkdirAll` error is
discarded), open or initialize the repository, then run the sync tail. -/
def runMain (env : Env) : List Event :=
  match loadConfig env.configFile with
  | .error e => [Event.print ("Configuration Error: " ++ e)]
  | .ok cfg =>
    let dirEvs :=
      if env.dirMissing then
        [Event.print ("Creating directory: " ++ cfg.notesDirectory),
         Event.mkdirAll cfg.notesDirectory]
      else []
    let openEvs := [Event.openRepo cfg.notesDirectory]
    match env.openRes with
    | .err e => dirEvs ++ openEvs ++ [Event.print ("Failed to open repo: " ++ e)]
    | .notExists =>
      let initEvs := [Event.print "Initializing new Git repository...",
                      Event.initRepo cfg.notesDirectory]
      match env.initErr with
      | some e => dirEvs ++ openEvs ++ initEvs ++ [Event.print ("Init Failed: " ++ e)]
      | none =>
          dirEvs ++ openEvs ++ initEvs ++ setupRemote env cfg.githubRepoUrl ++
            mainTail env cfg none
    | .ok => dirEvs ++ openEvs ++ mainTail env cfg none

/-! ## Trace analysis helpers -/

/-- The sync stage an engine-call event belongs to: 1 for provisioning
(directory, open, init, remote), 2 for pull, 3 for commit work, 4 for
push, 5 for branch checkout.  Printed lines carry no stage. -/
def stageOf : Event → Option Nat
  | .mkdirAll _ => some 1
  | .openRepo _ => some 1
  | .initRepo _ => some 1
  | .createRemote _ _ => some 1
  | .pull _ => some 2
  | .statusCheck => some 3
  | .addAll => some 3
  | .commit _ _ _ => some 3
  | .push _ _ => some 4
  | .checkout _ _ => some 5
  | .print _ => none

/-- The stages of the engine calls in a trace, in emission order. -/
def stages (t : List Event) : List Nat := t.filterMap stageOf

/-- Whether an event is a call to the engine's commit operation. -/
def isCommitEvent : Event → Bool
  | .commit _ _ _ => true
  | _ => false

/-- Whether an event is a call to the engine's push operation. -/
def isPushEvent : Event → Bool
  | .push _ _ => true
  | _ => false

/-- Whether a trace contains a push call. -/
def hasPush (t : List Event) : Bool := t.any isPushEvent

/-- Whether `loadConfig` succeeded. -/
def configOk : Except String Config → Bool
  | .ok _ => true
  | .error _ => false

/-- The provisioning block (main.go lines 29-48) hands a repository to
the sync tail exactly when the configuration loaded and either the open
succeeded, or the open reported not-exists and the init succeeded. -/
def provisionOk (env : Env) : Bool :=
  configOk (loadConfig env.configFile) &&
    match env.openRes with
    | .ok => true
    | .notExists => env.initErr.isNone
    | .err _ => false

/-! ## Concrete environments used as witnesses -/

/-- A baseline run: a configuration naming a remote URL and a notes
directory but no `branch_name`, every engine call succeeding, and local
uncommitted changes present. -/
def envBase : Env :=
  { configFile := ConfigFile.object
      [("github_repo_url", "https://example.com/notes.git"),
       ("notes_directory", "notes")]
    dirMissing := false
    openRes := OpenRes.ok
    initErr := none
    remoteErr := none
    worktreeErr := none
    pullRes := GitRes.ok
    statusErr := none
    statusClean := false
    addErr := none
    commitErr := none
    pushRes := GitRes.ok
    checkoutErr := none
    checkoutCreateErr := none
    hostname := "mypc"
    timestamp := "2026-01-02 03:04:05" }

/-- The baseline run with a clean working tree. -/
def envClean : Env := { envBase with statusClean := true }

/-- The baseline run with a configuration file whose JSON object has no
members at all. -/
def envNoFields : Env := { envBase with configFile := ConfigFile.object [] }

/-- The baseline run with an unreadable configuration file. -/
def envUnreadable : Env :=
  { envBase with configFile := ConfigFile.unreadable "no such file" }

/-- The baseline run with a pull that fails with an ordinary network
error, on a clean tree. -/
def envPullFail : Env :=
  { envBase with pullRes := GitRes.err "connection refused", statusClean := true }

/-! ## Further concrete environments -/

/-- The configuration `envBase` loads: both required fields set, branch
name absent (empty). -/
def cfgBase : Config :=
  unmarshalConfig
    [("github_repo_url", "https://example.com/notes.git"),
     ("notes_directory", "notes")]

/-- The baseline run with a non-fatal pull failure and a non-fatal push
failure. -/
def envNonFatal : Env :=
  { envBase with pullRes := GitRes.err "connection refused",
                 pushRes := GitRes.err "remote rejected" }

/-- The baseline run where staging fails. -/
def envCommitFail : Env := { envBase with addErr := some "index locked" }

/-- The baseline run on a repository that does not yet have the target
branch: the first checkout fails, the creating checkout succeeds. -/
def envNoBranch : Env := { envBase with checkoutErr := some "reference not found" }

/-- The baseline run where both checkout attempts fail. -/
def envBranchFatal : Env :=
  { envBase with checkoutErr := some "reference not found",
                 checkoutCreateErr := some "worktree dirty" }

/-- The baseline run where the pull reports `NoErrAlreadyUpToDate`. -/
def envPullUpToDate : Env := { envBase with pullRes := GitRes.alreadyUpToDate }

/-- The baseline run against an empty remote repository. -/
def envPullEmptyRemote : Env :=
  { envBase with pullRes := GitRes.err "remote repository is empty" }

/-- The baseline run where reading the working-tree status fails. -/
def envStatusFail : Env := { envBase with statusErr := some "status read failed" }

/-! ## Trace lemmas -/

theorem stages_append (a b : List Event) : stages (a ++ b) = stages a ++ stages b := by
  simp [stages]

theorem pairwise_le_of_const {c : Nat} (l : List Nat) (h : ∀ x ∈ l, x = c) :
    l.Pairwise (· ≤ ·) := by
  induction l with
  | nil => exact List.Pairwise.nil
  | cons a t ih =>
    refine List.Pairwise.cons ?_ (ih fun x hx => h x (by simp [hx]))
    intro b hb
    rw [h a (by simp), h b (by simp [hb])]

theorem pairwise_le_append_bound {l1 l2 : List Nat} {c : Nat}
    (h1 : l1.Pairwise (· ≤ ·)) (hb1 : ∀ x ∈ l1, x ≤ c)
    (h2 : l2.Pairwise (· ≤ ·)) (hb2 : ∀ x ∈ l2, c ≤ x) :
    (l1 ++ l2).Pairwise (· ≤ ·) :=
  List.pairwise_append.mpr ⟨h1, h2, fun a ha b hb => le_trans (hb1 a ha) (hb2 b hb)⟩

theorem stages_pullLatest (env : Env) : ∀ x ∈ stages (pullLatest env).2, x = 2 := by
  unfold pullLatest
  cases env.worktreeErr with
  | some e => simp [stages]
  | none =>
    cases env.pullRes with
    | ok => simp [stages, stageOf]
    | alreadyUpToDate => simp [stages, stageOf]
    | err m =>
      by_cases hm : m = "remote repository is empty" <;> simp [stages, stageOf, hm]

theorem stages_autoCommit (env : Env) : ∀ x ∈ stages (autoCommit env).2, x = 3 := by
  unfold autoCommit
  cases env.worktreeErr with
  | some e => simp [stages]
  | none =>
    cases env.statusErr with
    | some e => simp [stages, stageOf]
    | none =>
      cases env.statusClean
      · cases env.addErr with
        | some e => simp [stages, stageOf]
        | none =>
          cases env.commitErr with
          | some e => simp [stages, stageOf]
          | none => simp [stages, stageOf]
      · simp [stages, stageOf]

theorem stages_pushToRemote (env : Env) : ∀ x ∈ stages (pushToRemote env).2, x = 4 := by
  unfold pushToRemote
  cases env.pushRes <;> simp [stages, stageOf]

theorem stages_ensureCorrectBranch (env : Env) (b : String) :
    ∀ x ∈ stages (ensureCorrectBranch env b).2, x = 5 := by
  unfold ensureCorrectBranch
  cases env.worktreeErr with
  | some e => simp [stages]
  | none => cases env.checkoutErr <;> simp [stages, stageOf]

theorem stages_setupRemote (env : Env) (u : String) :
    ∀ x ∈ stages (setupRemote env u), x = 1 := by
  unfold setupRemote
  cases env.remoteErr <;> simp [stages, stageOf]



theorem stages_commitAndPush (env : Env) :
    ∀ x ∈ stages (commitAndPush env), 3 ≤ x ∧ x ≤ 4 := by
  intro x hx
  unfold commitAndPush at hx
  rw [stages_append] at hx
  rcases List.mem_append.mp hx with h | h
  · have := stages_autoCommit env x h; omega
  · cases hc : (autoCommit env).1 with
    | some e => rw [hc] at h; simp [stages, stageOf] at h
    | none =>
      rw [hc] at h
      rw [stages_append] at h
      rcases List.mem_append.mp h with h2 | h2
      · have := stages_pushToRemote env x h2; omega
      · cases hp : (pushToRemote env).1 with
        | some e => rw [hp] at h2; simp [stages, stageOf] at h2
        | none => rw [hp] at h2; simp [stages] at h2

theorem pairwise_stages_commitAndPush (env : Env) :
    (stages (commitAndPush env)).Pairwise (· ≤ ·) := by
  unfold commitAndPush
  rw [stages_append]
  refine pairwise_le_append_bound (c := 3)
    (pairwise_le_of_const _ (stages_autoCommit env))
    (fun x hx => le_of_eq (stages_autoCommit env x hx)) ?_ ?_
  · cases hc : (autoCommit env).1 with
    | some e => simp [stages, stageOf]
    | none =>
      rw [stages_append]
      refine pairwise_le_append_bound (c := 4)
        (pairwise_le_of_const _ (stages_pushToRemote env))
        (fun x hx => le_of_eq (stages_pushToRemote env x hx)) ?_ ?_
      · cases hp : (pushToRemote env).1 <;> simp [stages, stageOf]
      · cases hp : (pushToRemote env).1 <;> simp [stages, stageOf]
  · cases hc : (autoCommit env).1 with
    | some e => simp [stages, stageOf]
    | none =>
      intro x hx
      rw [stages_append] at hx
      rcases List.mem_append.mp hx with h | h
      · have := stages_pushToRemote env x h; omega
      · cases hp : (pushToRemote env).1 with
        | some e => rw [hp] at h; simp [stages, stageOf] at h
        | none => rw [hp] at h; simp [stages] at h

theorem stages_branchStage (env : Env) (cfg : Config) :
    ∀ x ∈ stages (branchStage env cfg), x = 5 := by
  intro x hx
  unfold branchStage at hx
  rw [stages_append] at hx
  rcases List.mem_append.mp hx with h | h
  · exact stages_ensureCorrectBranch env cfg.branchName x h
  · cases hb : (ensureCorrectBranch env cfg.branchName).1 with
    | some e => rw [hb] at h; simp [stages, stageOf] at h
    | none => rw [hb] at h; simp [stages] at h

theorem stages_pullWarn (env : Env) :
    ∀ x ∈ stages (pullLatest env).2 ++ stages ([] : List Event), x = 2 := by
  intro x hx
  rcases List.mem_append.mp hx with h | h
  · exact stages_pullLatest env x h
  · simp [stages] at h

theorem stages_mainTail (env : Env) (cfg : Config) :
    ∀ x ∈ stages (mainTail env cfg none), 2 ≤ x ∧ x ≤ 5 := by
  intro x hx
  unfold mainTail at hx
  simp only [stages_append, List.mem_append] at hx
  rcases hx with ((h | h) | h) | h
  · have := stages_pullLatest env x h; omega
  · simp [stages] at h
  · have := stages_commitAndPush env x h; omega
  · have := stages_branchStage env cfg x h; omega

theorem pairwise_stages_mainTail (env : Env) (cfg : Config) :
    (stages (mainTail env cfg none)).Pairwise (· ≤ ·) := by
  unfold mainTail
  simp only [stages_append]
  refine pairwise_le_append_bound (c := 4)
    (pairwise_le_append_bound (c := 2)
      (pairwise_le_of_const _ (stages_pullWarn env))
      (fun x hx => le_of_eq (stages_pullWarn env x hx))
      (pairwise_stages_commitAndPush env)
      (fun x hx => le_trans (by omega) (stages_commitAndPush env x hx).1))
    ?_
    (pairwise_le_of_const _ (stages_branchStage env cfg))
    (fun x hx => by rw [stages_branchStage env cfg x hx]; omega)
  intro x hx
  rcases List.mem_append.mp hx with h | h
  · rw [stages_pullWarn env x h]; omega
  · exact (stages_commitAndPush env x h).2


theorem pairwise_stages_prefix_mainTail {p : List Event} (env : Env) (cfg : Config)
    (hp : ∀ x ∈ stages p, x = 1) :
    (stages (p ++ mainTail env cfg none)).Pairwise (· ≤ ·) := by
  rw [stages_append]
  exact pairwise_le_append_bound (c := 1)
    (pairwise_le_of_const _ hp)
    (fun x hx => le_of_eq (hp x hx))
    (pairwise_stages_mainTail env cfg)
    (fun x hx => le_trans (by omega) (stages_mainTail env cfg x hx).1)

theorem stages_dirEvents (b : Bool) (d : String) :
    ∀ x ∈ stages
      (if b then [Event.print ("Creating directory: " ++ d), Event.mkdirAll d] else []),
      x = 1 := by
  cases b <;> simp [stages, stageOf]

theorem pairwise_stages_runMain (env : Env) :
    (stages (runMain env)).Pairwise (· ≤ ·) := by
  unfold runMain
  cases hcf : loadConfig env.configFile with
  | error e => simp [stages, stageOf]
  | ok cfg =>
    cases ho : env.openRes with
    | err m =>
      cases env.dirMissing <;> simp [stages, stageOf]
    | notExists =>
      cases hi : env.initErr with
      | some e => cases env.dirMissing <;> simp [stages, stageOf]
      | none =>
        refine pairwise_stages_prefix_mainTail env cfg ?_
        intro x hx
        simp only [stages_append, List.mem_append] at hx
        rcases hx with ((hx | hx) | hx) | hx
        · exact stages_dirEvents env.dirMissing cfg.notesDirectory x hx
        · simp [stages, stageOf] at hx; tauto
        · simp [stages, stageOf] at hx; tauto
        · exact stages_setupRemote env cfg.githubRepoUrl x hx
    | ok =>
      refine pairwise_stages_prefix_mainTail env cfg ?_
      intro x hx
      simp only [stages_append, List.mem_append] at hx
      rcases hx with hx | hx
      · exact stages_dirEvents env.dirMissing cfg.notesDirectory x hx
      · simp [stages, stageOf] at hx; tauto


theorem stages_runMain_open_err (env : Env) (m : String) (ho : env.openRes = OpenRes.err m) :
    ∀ s ∈ stages (runMain env), s ≤ 1 := by
  intro s hs
  unfold runMain at hs
  cases hcf : loadConfig env.configFile with
  | error e => rw [hcf] at hs; simp [stages, stageOf] at hs
  | ok cfg =>
    rw [hcf, ho] at hs
    simp only [stages_append, List.mem_append] at hs
    rcases hs with (hs | hs) | hs
    · exact le_of_eq (stages_dirEvents env.dirMissing cfg.notesDirectory s hs)
    · simp [stages, stageOf] at hs; omega
    · simp [stages, stageOf] at hs

theorem stages_runMain_init_err (env : Env) (m : String)
    (ho : env.openRes = OpenRes.notExists) (hi : env.initErr = some m) :
    ∀ s ∈ stages (runMain env), s ≤ 1 := by
  intro s hs
  unfold runMain at hs
  cases hcf : loadConfig env.configFile with
  | error e => rw [hcf] at hs; simp [stages, stageOf] at hs
  | ok cfg =>
    rw [hcf, ho, hi] at hs
    simp only [stages_append, List.mem_append] at hs
    rcases hs with ((hs | hs) | hs) | hs
    · exact le_of_eq (stages_dirEvents env.dirMissing cfg.notesDirectory s hs)
    · simp [stages, stageOf] at hs; omega
    · simp [stages, stageOf] at hs; omega
    · simp [stages, stageOf] at hs

theorem mem_mainTail_mem_runMain {env : Env} {cfg : Config}
    (hcf : loadConfig env.configFile = Except.ok cfg)
    (hprov : provisionOk env = true) :
    ∀ e ∈ mainTail env cfg none, e ∈ runMain env := by
  intro e he
  unfold provisionOk at hprov
  rw [hcf] at hprov
  simp only [configOk, Bool.true_and] at hprov
  unfold runMain
  rw [hcf]
  cases ho : env.openRes with
  | ok => simp [List.mem_append, he]
  | notExists =>
    rw [ho] at hprov
    cases hi : env.initErr with
    | some m => rw [hi] at hprov; simp at hprov
    | none => simp [List.mem_append, he]
  | err m => rw [ho] at hprov; simp at hprov

theorem any_push_eq_false {l : List Event} (h : ∀ x ∈ stages l, x ≠ 4) :
    l.any isPushEvent = false := by
  rw [List.any_eq_false]
  intro e he
  cases e <;> simp [isPushEvent]
  exact (h 4 (List.mem_filterMap.mpr ⟨_, he, rfl⟩)) rfl

theorem any_push_pushToRemote (env : Env) : (pushToRemote env).2.any isPushEvent = true := by
  unfold pushToRemote
  cases env.pushRes <;> simp [isPushEvent]

theorem any_push_commitAndPush (env : Env) :
    (commitAndPush env).any isPushEvent = (autoCommit env).1.isNone := by
  unfold commitAndPush
  rw [List.any_append]
  rw [any_push_eq_false (l := (autoCommit env).2)
    (fun x hx => by rw [stages_autoCommit env x hx]; omega)]
  simp only [Bool.false_or]
  cases hc : (autoCommit env).1 with
  | some e => simp [isPushEvent]
  | none => rw [List.any_append, any_push_pushToRemote]; simp

theorem hasPush_mainTail (env : Env) (cfg : Config) :
    hasPush (mainTail env cfg none) = (autoCommit env).1.isNone := by
  unfold hasPush mainTail
  simp only [List.any_append]
  rw [any_push_eq_false (l := (pullLatest env).2)
    (fun x hx => by rw [stages_pullLatest env x hx]; omega)]
  rw [any_push_eq_false (l := branchStage env cfg)
    (fun x hx => by rw [stages_branchStage env cfg x hx]; omega)]
  rw [any_push_commitAndPush]
  simp

theorem hasPush_runMain {env : Env} {cfg : Config}
    (hcf : loadConfig env.configFile = Except.ok cfg)
    (hprov : provisionOk env = true) :
    hasPush (runMain env) = (autoCommit env).1.isNone := by
  unfold provisionOk at hprov
  rw [hcf] at hprov
  simp only [configOk, Bool.true_and] at hprov
  unfold runMain hasPush
  rw [hcf]
  have hdir : (if env.dirMissing then
      [Event.print ("Creating directory: " ++ cfg.notesDirectory),
       Event.mkdirAll cfg.notesDirectory] else []).any isPushEvent = false := by
    cases env.dirMissing <;> simp [isPushEvent]
  cases ho : env.openRes with
  | ok =>
    simp only [List.any_append, hdir]
    have := hasPush_mainTail env cfg
    unfold hasPush at this
    rw [this]
    simp [isPushEvent]
  | notExists =>
    rw [ho] at hprov
    cases hi : env.initErr with
    | some m => rw [hi] at hprov; simp at hprov
    | none =>
      have hsr : (setupRemote env cfg.githubRepoUrl).any isPushEvent = false := by
        unfold setupRemote
        cases env.remoteErr <;> simp [isPushEvent]
      simp only [List.any_append, hdir, hsr]
      have := hasPush_mainTail env cfg
      unfold hasPush at this
      rw [this]
      simp [isPushEvent]
  | err m => rw [ho] at hprov; simp at hprov


theorem suffix_append_extend {s b : List Event} (a : List Event) (h : s.IsSuffix b) :
    s.IsSuffix (a ++ b) := by
  obtain ⟨t, rfl⟩ := h
  exact ⟨a ++ t, by simp⟩

theorem branchStage_suffix_mainTail (env : Env) (cfg : Config) :
    (branchStage env cfg).IsSuffix (mainTail env cfg none) := by
  unfold mainTail
  exact List.suffix_append _ _

theorem branchStage_suffix_runMain {env : Env} {cfg : Config}
    (hcf : loadConfig env.configFile = Except.ok cfg)
    (hprov : provisionOk env = true) :
    (branchStage env cfg).IsSuffix (runMain env) := by
  unfold provisionOk at hprov
  rw [hcf] at hprov
  simp only [configOk, Bool.true_and] at hprov
  unfold runMain
  rw [hcf]
  cases ho : env.openRes with
  | ok => exact suffix_append_extend _ (branchStage_suffix_mainTail env cfg)
  | notExists =>
    rw [ho] at hprov
    cases hi : env.initErr with
    | some m => rw [hi] at hprov; simp at hprov
    | none => exact suffix_append_extend _ (branchStage_suffix_mainTail env cfg)
  | err m => rw [ho] at hprov; simp at hprov

theorem branchStage_ne_nil (env : Env) (cfg : Config) : branchStage env cfg ≠ [] := by
  unfold branchStage ensureCorrectBranch
  cases env.worktreeErr with
  | some e => simp
  | none => cases env.checkoutErr <;> simp

theorem pull_mem_mainTail {env : Env} (hw : env.worktreeErr = none) (cfg : Config) :
    Event.pull "origin" ∈ mainTail env cfg none := by
  unfold mainTail
  simp only [List.mem_append]
  left; left; left
  unfold pullLatest
  rw [hw]
  cases env.pullRes with
  | ok => simp
  | alreadyUpToDate => simp
  | err m => by_cases hm : m = "remote repository is empty" <;> simp [hm]

theorem statusCheck_mem_commitAndPush {env : Env} (hw : env.worktreeErr = none) :
    Event.statusCheck ∈ commitAndPush env := by
  unfold commitAndPush
  simp only [List.mem_append]
  left
  unfold autoCommit
  rw [hw]
  cases env.statusErr with
  | some e => simp
  | none =>
    cases env.statusClean with
    | true => simp
    | false =>
      cases env.addErr with
      | some e => simp
      | none => cases env.commitErr <;> simp

theorem checkout_mem_branchStage {env : Env} (hw : env.worktreeErr = none) (cfg : Config) :
    Event.checkout cfg.branchName false ∈ branchStage env cfg := by
  unfold branchStage ensureCorrectBranch
  rw [hw]
  cases env.checkoutErr <;> simp

theorem branch_error_last_runMain {env : Env} {cfg : Config} {e : String}
    (hcf : loadConfig env.configFile = Except.ok cfg)
    (hprov : provisionOk env = true)
    (hb : (ensureCorrectBranch env cfg.branchName).1 = some e) :
    ∃ t, runMain env = t ++ [Event.print ("Branch Error: " ++ e)] := by
  obtain ⟨t, ht⟩ := branchStage_suffix_runMain hcf hprov
  refine ⟨t ++ (ensureCorrectBranch env cfg.branchName).2, ?_⟩
  rw [← ht]
  unfold branchStage
  rw [hb]
  simp


/-! ## Claims -/

/-- Claim C1: `main` passes `config.BranchName` to `ensureCorrectBranch`
verbatim, with no hostname fallback: in `envBase` the `branch_name`
member is absent and the hostname is "mypc", yet the run checks out the
branch named by the empty string and never touches a branch named
"mypc". -/
theorem branchName_absent_checks_out_empty_branch :
    envBase.hostname = "mypc" ∧
    Event.checkout "" false ∈ runMain envBase ∧
    Event.checkout "mypc" false ∉ runMain envBase ∧
    Event.checkout "mypc" true ∉ runMain envBase := by
  refine ⟨rfl, ?_, ?_, ?_⟩ <;> decide

/-- Claim C2 counterexample: a configuration file whose JSON object has no
members at all loads without error (both required fields become `""`),
and the run goes on to open a repository, so repository operations do
occur. -/
theorem missing_fields_load_ok :
    loadConfig (ConfigFile.object []) =
      Except.ok { githubRepoUrl := "", notesDirectory := "", branchName := "" } ∧
    Event.openRepo "" ∈ runMain envNoFields :=
  ⟨rfl, by decide⟩

/-- Claim C2 amended: loading fails, and the run performs no repository
operation, exactly for an unreadable or malformed configuration file; a
parsed JSON object always loads successfully, missing members included
(they unmarshal to the empty string). -/
theorem load_fails_only_unreadable_or_malformed (env : Env) :
    (∀ e, env.configFile = ConfigFile.unreadable e ∨
          env.configFile = ConfigFile.malformed e →
      loadConfig env.configFile = Except.error e ∧ stages (runMain env) = []) ∧
    (∀ fields, env.configFile = ConfigFile.object fields →
      loadConfig env.configFile = Except.ok (unmarshalConfig fields)) := by
  constructor
  · rintro e (h | h) <;> (unfold runMain; rw [h]; exact ⟨rfl, rfl⟩)
  · intro fields h
    rw [h]
    rfl

/-- Witness for the amended C2 at concrete inputs. -/
theorem load_fails_only_unreadable_or_malformed_witness :
    (loadConfig envUnreadable.configFile = Except.error "no such file" ∧
      stages (runMain envUnreadable) = []) ∧
    loadConfig envNoFields.configFile = Except.ok (unmarshalConfig []) :=
  ⟨(load_fails_only_unreadable_or_malformed envUnreadable).1 "no such file" (Or.inl rfl),
   (load_fails_only_unreadable_or_malformed envNoFields).2 [] rfl⟩

/-- Claim C3: on a pull that fails with an ordinary error, the run does proceed
to the commit stage (and beyond), but no pull warning is printed: line 50
of main.go discards `pullLatest`'s return value, so the `err` tested at
line 51 is still nil and the "Pull Warning" printf is unreachable. -/
theorem pull_failure_not_logged_but_run_proceeds :
    Event.statusCheck ∈ runMain envPullFail ∧
    Event.checkout "" false ∈ runMain envPullFail ∧
    Event.print "Pull Warning: connection refused (Proceeding anyway...)" ∉
      runMain envPullFail := by
  refine ⟨?_, ?_, ?_⟩ <;> decide


theorem statusCheck_mem_mainTail {env : Env} (hw : env.worktreeErr = none)
    (cfg : Config) : Event.statusCheck ∈ mainTail env cfg none := by
  unfold mainTail
  simp only [List.mem_append]
  left; right
  exact statusCheck_mem_commitAndPush hw

theorem checkout_mem_mainTail {env : Env} (hw : env.worktreeErr = none)
    (cfg : Config) : Event.checkout cfg.branchName false ∈ mainTail env cfg none := by
  unfold mainTail
  simp only [List.mem_append]
  right
  exact checkout_mem_branchStage hw cfg

/-- Claim C4: every run visits the stages in the fixed order provisioning (1),
pull (2), commit (3), push (4), branch enforcement (5): the stage numbers
of the engine calls of any trace are monotone.  A configuration error
ends the run with no engine call at all; a fatal open or init failure
ends it inside provisioning (every stage number is at most 1); and once a
repository is provisioned, the pull, commit and checkout calls are all
reached whatever the pull, push or remote-setup outcomes were (those
failures are non-fatal). -/
theorem stage_order_state_machine (env : Env) :
    (stages (runMain env)).Pairwise (· ≤ ·) ∧
    (∀ e, loadConfig env.configFile = Except.error e → stages (runMain env) = []) ∧
    (∀ m, env.openRes = OpenRes.err m → ∀ s ∈ stages (runMain env), s ≤ 1) ∧
    (∀ m, env.openRes = OpenRes.notExists → env.initErr = some m →
      ∀ s ∈ stages (runMain env), s ≤ 1) ∧
    (∀ cfg, loadConfig env.configFile = Except.ok cfg → provisionOk env = true →
      env.worktreeErr = none →
      Event.pull "origin" ∈ runMain env ∧ Event.statusCheck ∈ runMain env ∧
      Event.checkout cfg.branchName false ∈ runMain env) := by
  refine ⟨pairwise_stages_runMain env, ?_,
    fun m => stages_runMain_open_err env m,
    fun m => stages_runMain_init_err env m, ?_⟩
  · intro e he
    unfold runMain
    rw [he]
    rfl
  · intro cfg hcf hprov hw
    exact ⟨mem_mainTail_mem_runMain hcf hprov _ (pull_mem_mainTail hw cfg),
           mem_mainTail_mem_runMain hcf hprov _ (statusCheck_mem_mainTail hw cfg),
           mem_mainTail_mem_runMain hcf hprov _ (checkout_mem_mainTail hw cfg)⟩

/-- Witness for C4: at a run with a failed pull and a failed push, the
stage order is monotone and pull, commit and checkout are all reached;
at an unreadable configuration no engine call happens. -/
theorem stage_order_state_machine_witness :
    (stages (runMain envNonFatal)).Pairwise (· ≤ ·) ∧
    stages (runMain envUnreadable) = [] ∧
    (Event.pull "origin" ∈ runMain envNonFatal ∧
     Event.statusCheck ∈ runMain envNonFatal ∧
     Event.checkout cfgBase.branchName false ∈ runMain envNonFatal) :=
  ⟨(stage_order_state_machine envNonFatal).1,
   (stage_order_state_machine envUnreadable).2.1 "no such file" rfl,
   (stage_order_state_machine envNonFatal).2.2.2.2 cfgBase rfl rfl rfl⟩

/-- Claim C5 counterexample: in a run with a clean working tree no commit call
is made at all, yet the push is still performed, so "when a commit did
not happen, push is skipped" fails on the code. -/
theorem clean_tree_pushes_without_commit :
    (runMain envClean).any isCommitEvent = false ∧
    hasPush (runMain envClean) = true ∧
    Event.print "Working tree clean. Nothing to commit." ∈ runMain envClean := by
  refine ⟨?_, ?_, ?_⟩ <;> decide

/-- Claim C5 amended: the push step is performed exactly when the commit step
returned no error (a clean tree returns no error without committing, and
push is then still attempted); whatever the commit outcome, the run
continues to branch enforcement, whose events end the trace and are
never empty. -/
theorem push_iff_commit_step_no_error (env : Env) (cfg : Config)
    (hcf : loadConfig env.configFile = Except.ok cfg)
    (hprov : provisionOk env = true) :
    hasPush (runMain env) = (autoCommit env).1.isNone ∧
    (branchStage env cfg).IsSuffix (runMain env) ∧
    branchStage env cfg ≠ [] :=
  ⟨hasPush_runMain hcf hprov, branchStage_suffix_runMain hcf hprov,
   branchStage_ne_nil env cfg⟩

/-- Witness for the amended C5 at a run whose staging step fails. -/
theorem push_iff_commit_step_no_error_witness :
    hasPush (runMain envCommitFail) = (autoCommit envCommitFail).1.isNone ∧
    (branchStage envCommitFail cfgBase).IsSuffix (runMain envCommitFail) ∧
    branchStage envCommitFail cfgBase ≠ [] :=
  push_iff_commit_step_no_error envCommitFail cfgBase rfl rfl

/-- Claim C6: with a readable status, a dirty tree leads to staging everything
and exactly one commit call, whose message is
`Sync: <hostname> [<timestamp>]` and whose author is the fixed synthetic
identity "Gotes Sync" <sync@gotes.local>; a clean tree leads to no
staging and no commit call, and the step still reports success. -/
theorem autoCommit_spec (env : Env)
    (hw : env.worktreeErr = none) (hs : env.statusErr = none) :
    (env.statusClean = false → env.addErr = none → env.commitErr = none →
      (autoCommit env).1 = none ∧
      Event.addAll ∈ (autoCommit env).2 ∧
      (autoCommit env).2.filter isCommitEvent =
        [Event.commit ("Sync: " ++ env.hostname ++ " [" ++ env.timestamp ++ "]")
          "Gotes Sync" "sync@gotes.local"]) ∧
    (env.statusClean = true →
      (autoCommit env).1 = none ∧
      Event.addAll ∉ (autoCommit env).2 ∧
      (autoCommit env).2.filter isCommitEvent = []) := by
  unfold autoCommit
  rw [hw, hs]
  constructor
  · intro h1 h2 h3
    rw [h1, h2, h3]
    simp [isCommitEvent]
  · intro h1
    rw [h1]
    simp [isCommitEvent]

/-- Witness for C6: the dirty-tree run `envBase` and the clean-tree run
`envClean`. -/
theorem autoCommit_spec_witness :
    ((autoCommit envBase).1 = none ∧
      Event.addAll ∈ (autoCommit envBase).2 ∧
      (autoCommit envBase).2.filter isCommitEvent =
        [Event.commit "Sync: mypc [2026-01-02 03:04:05]"
          "Gotes Sync" "sync@gotes.local"]) ∧
    ((autoCommit envClean).1 = none ∧
      Event.addAll ∉ (autoCommit envClean).2 ∧
      (autoCommit envClean).2.filter isCommitEvent = []) :=
  ⟨(autoCommit_spec envBase rfl rfl).1 rfl rfl rfl,
   (autoCommit_spec envClean rfl rfl).2 rfl⟩


/-- Claim C7: branch enforcement first checks the branch out without creating
it; when that succeeds nothing is created (no `Create: true` call, so no
duplicate on a repository that already has the branch); when it fails,
the branch is created and checked out, and the result is that second
attempt's; and when the second attempt also fails, the run's trace ends
with the Branch Error report. -/
theorem ensureCorrectBranch_spec (env : Env) (b : String)
    (hw : env.worktreeErr = none) :
    (ensureCorrectBranch env b).2.head? = some (Event.checkout b false) ∧
    (env.checkoutErr = none →
      (ensureCorrectBranch env b).1 = none ∧
      Event.checkout b true ∉ (ensureCorrectBranch env b).2) ∧
    (∀ e, env.checkoutErr = some e →
      Event.checkout b true ∈ (ensureCorrectBranch env b).2 ∧
      (ensureCorrectBranch env b).1 = env.checkoutCreateErr) ∧
    (∀ cfg e2, loadConfig env.configFile = Except.ok cfg →
      provisionOk env = true →
      (ensureCorrectBranch env cfg.branchName).1 = some e2 →
      ∃ t, runMain env = t ++ [Event.print ("Branch Error: " ++ e2)]) := by
  refine ⟨?_, ?_, ?_, fun cfg e2 hcf hprov hb => branch_error_last_runMain hcf hprov hb⟩
  · unfold ensureCorrectBranch
    rw [hw]
    cases env.checkoutErr <;> simp
  · intro h
    unfold ensureCorrectBranch
    rw [hw, h]
    simp
  · intro e h
    unfold ensureCorrectBranch
    rw [hw, h]
    simp

/-- Witness for C7: a run where the branch exists (`envBase`), one where
only the creating checkout succeeds (`envNoBranch`), and one where both
checkouts fail (`envBranchFatal`). -/
theorem ensureCorrectBranch_spec_witness :
    (ensureCorrectBranch envBase "").2.head? = some (Event.checkout "" false) ∧
    ((ensureCorrectBranch envBase "").1 = none ∧
      Event.checkout "" true ∉ (ensureCorrectBranch envBase "").2) ∧
    (Event.checkout "" true ∈ (ensureCorrectBranch envNoBranch "").2 ∧
      (ensureCorrectBranch envNoBranch "").1 = envNoBranch.checkoutCreateErr) ∧
    (∃ t, runMain envBranchFatal =
      t ++ [Event.print ("Branch Error: " ++ "worktree dirty")]) :=
  ⟨(ensureCorrectBranch_spec envBase "" rfl).1,
   (ensureCorrectBranch_spec envBase "" rfl).2.1 rfl,
   (ensureCorrectBranch_spec envNoBranch "" rfl).2.2.1 "reference not found" rfl,
   (ensureCorrectBranch_spec envBranchFatal "" rfl).2.2.2 cfgBase "worktree dirty"
     rfl rfl rfl⟩

/-- Claim C8: with a usable worktree, a pull that reports
`NoErrAlreadyUpToDate` and a pull that fails with "remote repository is
empty" both make `pullLatest` return nil. -/
theorem pull_upToDate_or_empty_remote_success (env : Env)
    (hw : env.worktreeErr = none) :
    (env.pullRes = GitRes.alreadyUpToDate → (pullLatest env).1 = none) ∧
    (env.pullRes = GitRes.err "remote repository is empty" →
      (pullLatest env).1 = none) := by
  unfold pullLatest
  rw [hw]
  constructor
  · intro h
    rw [h]
  · intro h
    rw [h]
    simp

/-- Witness for C8 at the two concrete pull outcomes. -/
theorem pull_upToDate_or_empty_remote_success_witness :
    (pullLatest envPullUpToDate).1 = none ∧
    (pullLatest envPullEmptyRemote).1 = none :=
  ⟨(pull_upToDate_or_empty_remote_success envPullUpToDate rfl).1 rfl,
   (pull_upToDate_or_empty_remote_success envPullEmptyRemote rfl).2 rfl⟩

/-- Claim C9: when the notes directory is missing, the run asks for it to be
created; when the directory could not be created (so the open reports
not-exists and the init then fails), the run ends inside provisioning
with the Init Failed report and performs none of the sync operations
(every engine-call stage is at most 1); when the init succeeds, the
repository is initialized and a remote named "origin" with the
configured URL is attached. -/
theorem provision_failure_and_init_spec (env : Env) (cfg : Config)
    (hcf : loadConfig env.configFile = Except.ok cfg)
    (hd : env.dirMissing = true) :
    (∀ e, env.openRes = OpenRes.notExists → env.initErr = some e →
      Event.mkdirAll cfg.notesDirectory ∈ runMain env ∧
      Event.print ("Init Failed: " ++ e) ∈ runMain env ∧
      (∀ s ∈ stages (runMain env), s ≤ 1)) ∧
    (env.openRes = OpenRes.notExists → env.initErr = none →
      Event.mkdirAll cfg.notesDirectory ∈ runMain env ∧
      Event.initRepo cfg.notesDirectory ∈ runMain env ∧
      Event.createRemote "origin" cfg.githubRepoUrl ∈ runMain env) := by
  constructor
  · intro e ho hi
    refine ⟨?_, ?_, stages_runMain_init_err env e ho hi⟩ <;>
      (unfold runMain; rw [hcf, ho, hi, hd]; simp)
  · intro ho hi
    refine ⟨?_, ?_, ?_⟩ <;>
      (unfold runMain; rw [hcf, ho, hi, hd]; simp [setupRemote, List.mem_append])

/-- Witness for C9: a failed-creation run and a successful init run. -/
theorem provision_failure_and_init_spec_witness :
    (Event.mkdirAll "notes" ∈ runMain
        { envBase with dirMissing := true, openRes := OpenRes.notExists,
                       initErr := some "mkdir notes: permission denied" } ∧
      Event.print ("Init Failed: " ++ "mkdir notes: permission denied") ∈ runMain
        { envBase with dirMissing := true, openRes := OpenRes.notExists,
                       initErr := some "mkdir notes: permission denied" } ∧
      (∀ s ∈ stages (runMain
        { envBase with dirMissing := true, openRes := OpenRes.notExists,
                       initErr := some "mkdir notes: permission denied" }), s ≤ 1)) ∧
    (Event.mkdirAll "notes" ∈ runMain
        { envBase with dirMissing := true, openRes := OpenRes.notExists } ∧
      Event.initRepo "notes" ∈ runMain
        { envBase with dirMissing := true, openRes := OpenRes.notExists } ∧
      Event.createRemote "origin" "https://example.com/notes.git" ∈ runMain
        { envBase with dirMissing := true, openRes := OpenRes.notExists }) :=
  ⟨(provision_failure_and_init_spec
      { envBase with dirMissing := true, openRes := OpenRes.notExists,
                     initErr := some "mkdir notes: permission denied" }
      cfgBase rfl rfl).1 "mkdir notes: permission denied" rfl rfl,
   (provision_failure_and_init_spec
      { envBase with dirMissing := true, openRes := OpenRes.notExists }
      cfgBase rfl rfl).2 rfl rfl⟩

/-- Claim C10: when reading the working-tree status fails, its error is
discarded and the nil status map counts as clean: the commit step stages
nothing, calls no commit, returns success, and the run then attempts the
push. -/
theorem status_error_treated_as_clean (env : Env) (e : String)
    (hw : env.worktreeErr = none) (hs : env.statusErr = some e) :
    (autoCommit env).1 = none ∧
    Event.addAll ∉ (autoCommit env).2 ∧
    (autoCommit env).2.filter isCommitEvent = [] ∧
    (∀ cfg, loadConfig env.configFile = Except.ok cfg →
      provisionOk env = true → hasPush (runMain env) = true) := by
  have ha : autoCommit env =
      (none, [Event.statusCheck,
              Event.print "Working tree clean. Nothing to commit."]) := by
    unfold autoCommit
    rw [hw, hs]
    rfl
  refine ⟨by rw [ha], by rw [ha]; simp, by rw [ha]; simp [isCommitEvent], ?_⟩
  intro cfg hcf hprov
  rw [hasPush_runMain hcf hprov, ha]
  rfl

/-- Witness for C10 at a concrete failed status read. -/
theorem status_error_treated_as_clean_witness :
    (autoCommit envStatusFail).1 = none ∧
    Event.addAll ∉ (autoCommit envStatusFail).2 ∧
    (autoCommit envStatusFail).2.filter isCommitEvent = [] ∧
    hasPush (runMain envStatusFail) = true := by
  have h := status_error_treated_as_clean envStatusFail "status read failed" rfl rfl
  exact ⟨h.1, h.2.1, h.2.2.1, h.2.2.2 cfgBase rfl rfl⟩

end Gotes
